import Mathlib
/-!
Verification of the ChessLens analysis pipeline.

Shallow embedding of the analytic core of the `chesslens` server:
`MoveClassifier`, `PhaseClassifier`, the centipawn-loss computation and
aggregation of `StockfishAnalyzer.analyze_game`, `FeatureExtractor.extract`,
`AggregatedFeatures.from_games` / `to_normalized_dict`,
`WeaknessDetector.analyze` / `_analyze_rushing`, and the repertoire
ranking of `OpeningAnalyzer.analyze_repertoire`.

Python floats are modelled as rationals, Python ints as `Int`/`Nat`,
Python dicts either as total functions (when read with a `.get` default)
or as insertion-ordered association lists. External collaborators (the
position-evaluation oracle, FEN parsing into a board, and the standard
library's `stdev`) are passed in as function parameters.
-/

namespace ChessLens

/-- `MoveClassification` enum from `models/enums.py`. -/
inductive MoveClassification where
  | brilliant
  | good
  | book
  | inaccuracy
  | mistake
  | blunder
  deriving DecidableEq, Repr

/-- `GamePhase` enum from `models/enums.py`. -/
inductive GamePhase where
  | opening
  | middlegame
  | endgame
  deriving DecidableEq, Repr

/-- `MoveClassifier.classify` from `analysis/move_classifier.py`:
the chain of `if centipawn_loss <= 0 / <= 10 / <= 50 / <= 100 / else`. -/
def classify (centipawn_loss : Int) : MoveClassification :=
  if centipawn_loss ≤ 0 then .good
  else if centipawn_loss ≤ 10 then .good
  else if centipawn_loss ≤ 50 then .inaccuracy
  else if centipawn_loss ≤ 100 then .mistake
  else .blunder

/-- Severity order of the four classifications produced by `classify`
(GOOD < INACCURACY < MISTAKE < BLUNDER); used to state monotonicity. -/
def severity : MoveClassification → Nat
  | .brilliant => 0
  | .good => 0
  | .book => 0
  | .inaccuracy => 1
  | .mistake => 2
  | .blunder => 3

/-- Centipawn loss of one move, `stockfish_analyzer.py` lines 109-116:
`max(0, before - after)` for a white mover, `max(0, (-before) - (-after))`
for a black mover, then `min(., 1000)`. -/
def cp_loss (is_white : Bool) (score_before score_after : Int) : Int :=
  let raw : Int :=
    if is_white then max 0 (score_before - score_after)
    else max 0 ((-score_before) - (-score_after))
  min raw 1000

/-- Piece kinds of the `chess` library as seen by `PhaseClassifier`. -/
inductive PieceType where
  | pawn
  | knight
  | bishop
  | rook
  | queen
  | king
  deriving DecidableEq, Repr

/-- A board as the data `PhaseClassifier._total_material` reads from it:
the number of pieces of each type and colour (`true` = white). -/
structure Board where
  pieces : PieceType → Bool → Nat

/-- `PhaseClassifier.PIECE_VALUES` from `analysis/phase_classifier.py`:
pawn 1, knight 3, bishop 3, rook 5, queen 9; no entry for the king. -/
def PIECE_VALUES : List (PieceType × Nat) :=
  [(.pawn, 1), (.knight, 3), (.bishop, 3), (.rook, 5), (.queen, 9)]

/-- `PhaseClassifier._total_material`: sum over the `PIECE_VALUES` entries of
(count of white pieces of that type + count of black pieces) times the value. -/
def total_material (board : Board) : Nat :=
  PIECE_VALUES.foldl
    (fun total pv =>
      total + board.pieces pv.1 true * pv.2 + board.pieces pv.1 false * pv.2)
    0

/-- `PhaseClassifier.classify` from `analysis/phase_classifier.py`
(the local `material` variable is inlined). -/
def phase_classify (board : Board) (move_number : Nat) : GamePhase :=
  if move_number ≤ 12 ∧ 60 ≤ total_material board then .opening
  else if total_material board ≤ 26 then .endgame
  else .middlegame

/-- A board holding only `n` pawns of White (a convenient concrete material
value `n` for boundary tests of `phase_classify`). -/
def pawnBoard (n : Nat) : Board :=
  ⟨fun t c => if t = .pawn ∧ c = true then n else 0⟩

/-- The `ranges` dict of `AggregatedFeatures.to_normalized_dict`
(`feature_extractor.py` lines 214-231), as an association list. -/
def feature_ranges_table : List (String × (ℚ × ℚ)) :=
  [("avg_centipawn_loss", (0, 200)),
   ("acpl_opening", (0, 200)),
   ("acpl_middlegame", (0, 200)),
   ("acpl_endgame", (0, 200)),
   ("blunder_rate", (0, 3/10)),
   ("capture_rate", (0, 1/2)),
   ("check_frequency", (0, 3/20)),
   ("sacrifice_rate", (0, 1/10)),
   ("center_control", (0, 4)),
   ("piece_activity", (0, 50)),
   ("avg_think_time", (0, 60)),
   ("think_time_variance", (0, 30)),
   ("time_pressure_blunder_rate", (0, 1/2)),
   ("endgame_frequency", (0, 1)),
   ("game_length", (0, 120)),
   ("decisive_game_rate", (0, 1))]

/-- `ranges.get(name, (0, 1))`: the configured range of a field, with
names outside the table defaulting to (0, 1). -/
def feature_ranges (name : String) : ℚ × ℚ :=
  (feature_ranges_table.lookup name).getD (0, 1)

/-- The normalization of one mean in `to_normalized_dict`:
`(value - min) / (max - min)` clamped into [0, 1] when `max > min`,
else 0.0. -/
def normalize_value (name : String) (value : ℚ) : ℚ :=
  if (feature_ranges name).1 < (feature_ranges name).2 then
    max 0 (min 1 ((value - (feature_ranges name).1) /
      ((feature_ranges name).2 - (feature_ranges name).1)))
  else 0

/-- `AggregatedFeatures.to_normalized_dict`: normalize every entry of the
means mapping (an insertion-ordered association list). -/
def to_normalized_dict (means : List (String × ℚ)) : List (String × ℚ) :=
  means.map fun p => (p.1, normalize_value p.1 p.2)

/-- Mean of a list of rationals, modelling `statistics.mean` on floats
(Python's `mean` raises on an empty list; every call site guards emptiness,
and ℚ division by zero returns 0 there). -/
def listMean (l : List ℚ) : ℚ := l.sum / (l.length : ℚ)

/-- Mean of a list of integers as a rational (`sum(lst) / len(lst)`). -/
def meanInt (l : List Int) : ℚ := ((l.sum : ℚ)) / (l.length : ℚ)

/-- `GameFeatures` dataclass from `analysis/feature_extractor.py`, with the
source's field defaults. Python floats are rationals, ints are `Int`. -/
structure GameFeatures where
  avg_centipawn_loss : ℚ := 0
  acpl_opening : ℚ := 0
  acpl_middlegame : ℚ := 0
  acpl_endgame : ℚ := 0
  blunder_rate : ℚ := 0
  capture_rate : ℚ := 0
  check_frequency : ℚ := 0
  sacrifice_rate : ℚ := 0
  center_control : ℚ := 0
  piece_activity : ℚ := 0
  avg_think_time : ℚ := 0
  think_time_variance : ℚ := 0
  time_pressure_blunder_rate : ℚ := 0
  opening_repertoire_breadth : Int := 0
  book_deviation_move : Int := 0
  endgame_frequency : ℚ := 0
  game_length : Int := 0
  decisive_game_rate : ℚ := 0
  deriving DecidableEq, Repr

/-- One element of the `move_evaluations` list consumed by
`FeatureExtractor.extract` and `WeaknessDetector.analyze`: a dict whose
keys match the `MoveEvaluation` fields. Keys read through `.get` with a
default are modelled as total fields carrying that default;
`clock_seconds` may be `None`. -/
structure MoveEvalRec where
  game_id : Nat := 0
  move_index : Nat := 0
  is_white : Bool
  san : String := ""
  centipawn_loss : Int := 0
  classification : String := "good"
  game_phase : String := "middlegame"
  clock_seconds : Option ℚ := none
  deriving DecidableEq, Repr

/-- Accumulator state of the loop in `FeatureExtractor.extract`
(`feature_extractor.py` lines 77-122); the `phase_losses` dict with keys
"opening"/"middlegame"/"endgame" is split into its three entries. -/
structure ExtractState where
  player_losses : List Int := []
  opening_losses : List Int := []
  middlegame_losses : List Int := []
  endgame_losses : List Int := []
  think_times : List ℚ := []
  captures : Nat := 0
  checks : Nat := 0
  blunders : Nat := 0
  player_moves : Nat := 0
  time_pressure_moves : Nat := 0
  time_pressure_blunders : Nat := 0

/-- One iteration of the loop in `FeatureExtractor.extract`: skip
non-player moves, otherwise accumulate losses, per-phase losses,
blunder/capture/check counts (capture iff "x" occurs in the SAN, check
iff "+" or "#" occurs), clock readings, and time-pressure counts. -/
def extract_step (is_player_white : Bool) (s : ExtractState)
    (ev : MoveEvalRec) : ExtractState :=
  if ev.is_white != is_player_white then s
  else
    let cp := ev.centipawn_loss
    let is_bl := ev.classification = "blunder" ∨ ev.classification = "mistake"
    { player_moves := s.player_moves + 1
      player_losses := s.player_losses ++ [cp]
      opening_losses :=
        if ev.game_phase = "opening" then s.opening_losses ++ [cp]
        else s.opening_losses
      middlegame_losses :=
        if ev.game_phase = "middlegame" then s.middlegame_losses ++ [cp]
        else s.middlegame_losses
      endgame_losses :=
        if ev.game_phase = "endgame" then s.endgame_losses ++ [cp]
        else s.endgame_losses
      blunders := if is_bl then s.blunders + 1 else s.blunders
      captures := if ev.san.contains 'x' then s.captures + 1 else s.captures
      checks :=
        if ev.san.contains '+' || ev.san.contains '#' then s.checks + 1
        else s.checks
      think_times :=
        match ev.clock_seconds with
        | some c => s.think_times ++ [c]
        | none => s.think_times
      time_pressure_moves :=
        match ev.clock_seconds with
        | some c =>
          if c < 60 then s.time_pressure_moves + 1 else s.time_pressure_moves
        | none => s.time_pressure_moves
      time_pressure_blunders :=
        match ev.clock_seconds with
        | some c =>
          if c < 60 ∧ is_bl then s.time_pressure_blunders + 1
          else s.time_pressure_blunders
        | none => s.time_pressure_blunders }

/-- The consecutive positive clock decreases of
`feature_extractor.py` lines 144-148: `delta = t[i-1] - t[i]`, kept only
when strictly positive. -/
def think_deltas : List ℚ → List ℚ
  | [] => []
  | [_] => []
  | a :: b :: rest =>
    (if 0 < a - b then [a - b] else []) ++ think_deltas (b :: rest)

/-- `FeatureExtractor.extract` from `analysis/feature_extractor.py`.
`stdevFn` abstracts the standard library's `statistics.stdev` (an
irrational square root, treated as an external computation); the loop is
`extract_step` folded over the evaluations. When `player_moves` is zero
the features are returned immediately with only `game_length` assigned
(the source sets `features.game_length = total_moves` before the loop). -/
def extract (stdevFn : List ℚ → ℚ) (move_evaluations : List MoveEvalRec)
    (player_color : String) (total_moves : Int) : GameFeatures :=
  let is_player_white := player_color == "white"
  let s := move_evaluations.foldl (extract_step is_player_white) {}
  if s.player_moves = 0 then { game_length := total_moves }
  else
    let deltas := think_deltas s.think_times
    { avg_centipawn_loss :=
        if s.player_losses ≠ [] then meanInt s.player_losses else 0
      acpl_opening :=
        if s.opening_losses ≠ [] then meanInt s.opening_losses else 0
      acpl_middlegame :=
        if s.middlegame_losses ≠ [] then meanInt s.middlegame_losses else 0
      acpl_endgame :=
        if s.endgame_losses ≠ [] then meanInt s.endgame_losses else 0
      blunder_rate := (s.blunders : ℚ) / (s.player_moves : ℚ)
      capture_rate := (s.captures : ℚ) / (s.player_moves : ℚ)
      check_frequency := (s.checks : ℚ) / (s.player_moves : ℚ)
      endgame_frequency := if s.endgame_losses ≠ [] then 1 else 0
      avg_think_time :=
        if 1 < s.think_times.length ∧ deltas ≠ [] then listMean deltas else 0
      think_time_variance :=
        if 1 < s.think_times.length ∧ deltas ≠ [] ∧ 1 < deltas.length then
          stdevFn deltas
        else 0
      time_pressure_blunder_rate :=
        (s.time_pressure_blunders : ℚ) / (max 1 s.time_pressure_moves : ℚ)
      game_length := total_moves }

/-- The `feature_names` list of `AggregatedFeatures.from_games`
(`feature_extractor.py` lines 182-199). -/
def feature_names : List String :=
  ["avg_centipawn_loss", "acpl_opening", "acpl_middlegame", "acpl_endgame",
   "blunder_rate", "capture_rate", "check_frequency", "sacrifice_rate",
   "center_control", "piece_activity", "avg_think_time",
   "think_time_variance", "time_pressure_blunder_rate",
   "endgame_frequency", "game_length", "decisive_game_rate"]

/-- `getattr(gf, name)` for the names that `from_games` reads (integer
fields are cast to ℚ as Python would coerce them when averaged). For a
name that is no attribute of `GameFeatures`, the source would raise; such
names are never queried, and the embedding returns 0 there. -/
def get_feature (name : String) (gf : GameFeatures) : ℚ :=
  if name = "avg_centipawn_loss" then gf.avg_centipawn_loss
  else if name = "acpl_opening" then gf.acpl_opening
  else if name = "acpl_middlegame" then gf.acpl_middlegame
  else if name = "acpl_endgame" then gf.acpl_endgame
  else if name = "blunder_rate" then gf.blunder_rate
  else if name = "capture_rate" then gf.capture_rate
  else if name = "check_frequency" then gf.check_frequency
  else if name = "sacrifice_rate" then gf.sacrifice_rate
  else if name = "center_control" then gf.center_control
  else if name = "piece_activity" then gf.piece_activity
  else if name = "avg_think_time" then gf.avg_think_time
  else if name = "think_time_variance" then gf.think_time_variance
  else if name = "time_pressure_blunder_rate" then gf.time_pressure_blunder_rate
  else if name = "endgame_frequency" then gf.endgame_frequency
  else if name = "game_length" then (gf.game_length : ℚ)
  else if name = "decisive_game_rate" then gf.decisive_game_rate
  else 0

/-- `AggregatedFeatures.from_games`: the empty input returns the freshly
constructed aggregate, whose `means` dict is empty; otherwise `means`
maps each feature name to `mean(values) if values else 0.0` over the
per-game attribute values. -/
def from_games (games : List GameFeatures) : List (String × ℚ) :=
  if games = [] then []
  else
    feature_names.map fun name =>
      (name,
        if games.map (get_feature name) ≠ [] then
          listMean (games.map (get_feature name))
        else 0)

/-- The three verdict tiers of `WeaknessDetector._analyze_rushing`; the
source chooses one of three fixed texts (with the multiplier
interpolated into the first), a display concern modelled as a tag. -/
inductive VerdictTier where
  | strong_warning
  | mild_warning
  | consistent
  deriving DecidableEq, Repr

/-- `RushingAnalysis` dataclass from `services/weakness_detector.py`. -/
structure RushingAnalysis where
  blunder_rate_under_60s : ℚ
  blunder_rate_over_60s : ℚ
  time_trouble_multiplier : ℚ
  verdict : VerdictTier
  deriving DecidableEq, Repr

/-- `WeaknessDetector._analyze_rushing`: partition clocked blunders and
non-blunders at the 60-second threshold, compute the under/over blunder
rates with denominators floored at 1, the multiplier with the 0.01 floor,
and the three-tier verdict. `time_blunders` pairs each clock reading with
its centipawn loss (the loss is never read); `total_moves` is the unused
third parameter of the source. -/
def analyze_rushing (time_blunders : List (ℚ × Int))
    (time_non_blunders : List ℚ) (total_moves : Nat) : RushingAnalysis :=
  let threshold : ℚ := 60
  let under_threshold_blunders := time_blunders.filter fun p => p.1 < threshold
  let over_threshold_blunders := time_blunders.filter fun p => threshold ≤ p.1
  let under_threshold_nonblunders := time_non_blunders.filter fun t => t < threshold
  let over_threshold_nonblunders := time_non_blunders.filter fun t => threshold ≤ t
  let moves_under :=
    under_threshold_blunders.length + under_threshold_nonblunders.length
  let moves_over :=
    over_threshold_blunders.length + over_threshold_nonblunders.length
  let rate_under : ℚ :=
    (under_threshold_blunders.length : ℚ) / ((max 1 moves_under : Nat) : ℚ)
  let rate_over : ℚ :=
    (over_threshold_blunders.length : ℚ) / ((max 1 moves_over : Nat) : ℚ)
  let multiplier : ℚ := rate_under / max (1/100) rate_over
  let verdict : VerdictTier :=
    if 2 < multiplier then .strong_warning
    else if 3/2 < multiplier then .mild_warning
    else .consistent
  ⟨rate_under, rate_over, multiplier, verdict⟩

/-- `ParsedMove` dataclass from `services/pgn_parser.py`. -/
structure ParsedMove where
  move_number : Nat
  ply : Nat
  is_white : Bool
  san : String
  uci : String
  fen_before : String
  fen_after : String
  clock_seconds : Option ℚ := none

/-- `EngineEval` dataclass from `analysis/position_evaluator.py`. -/
structure EngineEval where
  score_cp : Int
  best_move_uci : String
  best_move_san : String
  mate_in : Option Int
  principal_variation : List String
  depth : Nat

/-- `MoveAnalysis` dataclass from `services/stockfish_analyzer.py`. -/
structure MoveAnalysis where
  ply : Nat
  is_white : Bool
  san : String
  uci : String
  fen_before : String
  fen_after : String
  best_move_uci : String
  best_move_san : String
  score_before_cp : Int
  score_after_cp : Int
  centipawn_loss : Int
  classification : MoveClassification
  game_phase : GamePhase
  clock_seconds : Option ℚ
  engine_line : List String

/-- `GameAnalysisResult` dataclass from `services/stockfish_analyzer.py`. -/
structure GameAnalysisResult where
  player_acpl : ℚ
  opponent_acpl : ℚ
  blunder_count : Nat
  mistake_count : Nat
  inaccuracy_count : Nat
  opening_acpl : Option ℚ
  middlegame_acpl : Option ℚ
  endgame_acpl : Option ℚ
  moves : List MoveAnalysis

/-- Accumulator state of the move loop in
`StockfishAnalyzer.analyze_game` (`stockfish_analyzer.py` lines 88-133);
the `phase_losses` dict keyed by `GamePhase` is a function. -/
structure AnalyzeState where
  move_analyses : List MoveAnalysis := []
  player_losses : List Int := []
  opponent_losses : List Int := []
  phase_losses : GamePhase → List Int := fun _ => []
  blunders : Nat := 0
  mistakes : Nat := 0
  inaccuracies : Nat := 0

/-- One iteration of `analyze_game`'s loop: evaluate the positions before
and after the move (`oracle` abstracts the two `PositionEvaluator`
calls), compute the centipawn loss, classify quality and phase (`boardOf`
abstracts `chess.Board(move.fen_before)`), and accumulate either into the
player lists and counters or into the opponent losses. -/
def analyze_step (boardOf : String → Board) (oracle : String → EngineEval)
    (is_player_white : Bool) (s : AnalyzeState) (move : ParsedMove) :
    AnalyzeState :=
  let eval_before := oracle move.fen_before
  let eval_after := oracle move.fen_after
  let cp := cp_loss move.is_white eval_before.score_cp eval_after.score_cp
  let c := classify cp
  let phase := phase_classify (boardOf move.fen_before) move.move_number
  let ma : MoveAnalysis :=
    ⟨move.ply, move.is_white, move.san, move.uci, move.fen_before,
     move.fen_after, eval_before.best_move_uci, eval_before.best_move_san,
     eval_before.score_cp, eval_after.score_cp, cp, c, phase,
     move.clock_seconds, eval_before.principal_variation.take 5⟩
  if move.is_white == is_player_white then
    { s with
      player_losses := s.player_losses ++ [cp]
      phase_losses := fun p =>
        if p = phase then s.phase_losses p ++ [cp] else s.phase_losses p
      blunders := if c = .blunder then s.blunders + 1 else s.blunders
      mistakes :=
        if c = .blunder then s.mistakes
        else if c = .mistake then s.mistakes + 1 else s.mistakes
      inaccuracies :=
        if c = .blunder then s.inaccuracies
        else if c = .mistake then s.inaccuracies
        else if c = .inaccuracy then s.inaccuracies + 1 else s.inaccuracies
      move_analyses := s.move_analyses ++ [ma] }
  else
    { s with
      opponent_losses := s.opponent_losses ++ [cp]
      move_analyses := s.move_analyses ++ [ma] }

/-- The local `_avg` of `analyze_game`: `sum(lst) / len(lst) if lst else
0.0`. -/
def loss_avg (l : List Int) : ℚ := if l ≠ [] then meanInt l else 0

/-- `StockfishAnalyzer.analyze_game` from
`services/stockfish_analyzer.py`: fold the move loop over the parsed
moves, then build the summary; each per-phase ACPL is `None` when that
phase's loss list is empty. -/
def analyze_game (boardOf : String → Board) (oracle : String → EngineEval)
    (parsed_moves : List ParsedMove) (player_color : String) :
    GameAnalysisResult :=
  let is_player_white := player_color == "white"
  let s := parsed_moves.foldl (analyze_step boardOf oracle is_player_white) {}
  { player_acpl := loss_avg s.player_losses
    opponent_acpl := loss_avg s.opponent_losses
    blunder_count := s.blunders
    mistake_count := s.mistakes
    inaccuracy_count := s.inaccuracies
    opening_acpl :=
      if s.phase_losses .opening ≠ [] then
        some (loss_avg (s.phase_losses .opening))
      else none
    middlegame_acpl :=
      if s.phase_losses .middlegame ≠ [] then
        some (loss_avg (s.phase_losses .middlegame))
      else none
    endgame_acpl :=
      if s.phase_losses .endgame ≠ [] then
        some (loss_avg (s.phase_losses .endgame))
      else none
    moves := s.move_analyses }

/-- Selector for the per-phase ACPL field of a `GameAnalysisResult`. -/
def phase_acpl (r : GameAnalysisResult) : GamePhase → Option ℚ
  | .opening => r.opening_acpl
  | .middlegame => r.middlegame_acpl
  | .endgame => r.endgame_acpl

/-- The centipawn losses of the subject player's moves classified in
phase `p`, in move order — the contents `analyze_game` accumulates into
`phase_losses[p]`. -/
def player_phase_losses (boardOf : String → Board)
    (oracle : String → EngineEval) (is_player_white : Bool) (p : GamePhase) :
    List ParsedMove → List Int
  | [] => []
  | m :: ms =>
    (if m.is_white == is_player_white &&
        (phase_classify (boardOf m.fen_before) m.move_number == p) then
      [cp_loss m.is_white (oracle m.fen_before).score_cp
        (oracle m.fen_after).score_cp]
    else []) ++ player_phase_losses boardOf oracle is_player_white p ms

/-- The two phase-keyed counters of `WeaknessDetector.analyze`
(`weakness_detector.py` lines 59-87): moves and blunders per phase
string, as `defaultdict(int)` maps. -/
structure WeaknessCounts where
  moves_by_phase : String → Nat := fun _ => 0
  blunders_by_phase : String → Nat := fun _ => 0

/-- One iteration of the counting loop in `WeaknessDetector.analyze`:
skip moves of the other colour (the player colour of the move's game is
`player_color_per_game.get(game_id, "white")`, a total function here);
count the move under its phase and, when its classification is blunder
or mistake, count the blunder under its phase as well. -/
def weakness_count_step (player_color_per_game : Nat → String)
    (w : WeaknessCounts) (ev : MoveEvalRec) : WeaknessCounts :=
  let player_color := player_color_per_game ev.game_id
  let is_player_white := player_color == "white"
  if ev.is_white != is_player_white then w
  else
    let is_bl := ev.classification = "blunder" ∨ ev.classification = "mistake"
    { moves_by_phase := fun ph =>
        if ph = ev.game_phase then w.moves_by_phase ph + 1
        else w.moves_by_phase ph
      blunders_by_phase :=
        if is_bl then fun ph =>
          if ph = ev.game_phase then w.blunders_by_phase ph + 1
          else w.blunders_by_phase ph
        else w.blunders_by_phase }

/-- The phase counters after `WeaknessDetector.analyze`'s loop. -/
def weakness_counts (move_evaluations : List MoveEvalRec)
    (player_color_per_game : Nat → String) : WeaknessCounts :=
  move_evaluations.foldl (weakness_count_step player_color_per_game) {}

/-- The `phase_breakdown` dict built by `WeaknessDetector.analyze`
(`weakness_detector.py` lines 107-112): for each of the three phases,
`blunders / max(1, total)`. -/
def weakness_phase_breakdown (move_evaluations : List MoveEvalRec)
    (player_color_per_game : Nat → String) : List (String × ℚ) :=
  ["opening", "middlegame", "endgame"].map fun phase =>
    (phase,
      ((weakness_counts move_evaluations
          player_color_per_game).blunders_by_phase phase : ℚ) /
        ((max 1 ((weakness_counts move_evaluations
          player_color_per_game).moves_by_phase phase) : Nat) : ℚ))

/-- One game dict consumed by `OpeningAnalyzer.analyze_repertoire`, with
the `.get` defaults of `opening_analyzer.py` lines 108-119 (`pgn` and
`player_color` are never read in this path). -/
structure GameRec where
  eco : String := ""
  opening_name : String := "Unknown"
  player_result : String := ""
  deriving DecidableEq, Repr

/-- `OpeningStats` dataclass from `services/opening_analyzer.py` (its
`deviations` list stays empty throughout `analyze_repertoire` and is
omitted). -/
structure OpeningStats where
  eco : String
  name : String
  games_played : Nat := 0
  wins : Nat := 0
  draws : Nat := 0
  losses : Nat := 0
  deriving DecidableEq, Repr

/-- The `win_rate` property: `wins / max(1, games_played)`. -/
def OpeningStats.win_rate (o : OpeningStats) : ℚ :=
  (o.wins : ℚ) / ((max 1 o.games_played : Nat) : ℚ)

/-- The grouping key: `f"{eco}:{name}" if eco else name`. -/
def game_key (g : GameRec) : String :=
  if g.eco ≠ "" then g.eco ++ ":" ++ g.opening_name else g.opening_name

/-- Record one game into an `OpeningStats`:
`games_played += 1`, then bump wins/losses/draws by the result label
(anything other than "win"/"loss" counts as a draw). -/
def record_result (st : OpeningStats) (result : String) : OpeningStats :=
  let st1 := { st with games_played := st.games_played + 1 }
  if result = "win" then { st1 with wins := st1.wins + 1 }
  else if result = "loss" then { st1 with losses := st1.losses + 1 }
  else { st1 with draws := st1.draws + 1 }

/-- Insert one game into the `opening_stats` dict (an insertion-ordered
association list: an existing key is updated in place, a new key is
appended, as a Python dict does). -/
def upsert_stats (l : List (String × OpeningStats)) (g : GameRec) :
    List (String × OpeningStats) :=
  match l with
  | [] => [(game_key g,
      record_result ⟨g.eco, g.opening_name, 0, 0, 0, 0⟩ g.player_result)]
  | (k, st) :: rest =>
    if k = game_key g then (k, record_result st g.player_result) :: rest
    else (k, st) :: upsert_stats rest g

/-- The `opening_stats` dict after the accumulation loop of
`analyze_repertoire` (`opening_analyzer.py` lines 103-125). -/
def opening_stats_of (games : List GameRec) : List (String × OpeningStats) :=
  games.foldl upsert_stats []

/-- Stable insertion into a games-played-descending list: the new
element goes before the first strictly smaller entry — the position
Python's stable `sorted(key=games_played, reverse=True)` gives it. -/
def insert_desc (x : OpeningStats) : List OpeningStats → List OpeningStats
  | [] => [x]
  | y :: ys =>
    if y.games_played < x.games_played then x :: y :: ys
    else y :: insert_desc x ys

/-- `sorted(opening_stats.values(), key=lambda o: o.games_played,
reverse=True)`: a stable descending sort by games played. -/
def sort_games_desc (l : List OpeningStats) : List OpeningStats :=
  l.foldl (fun acc x => insert_desc x acc) []

/-- One step of Python's `min(..., key=lambda o: o.win_rate)`: keep the
current minimum, replacing it only on a strictly smaller key, so the
first minimum wins on ties. -/
def pick_min (best o : OpeningStats) : OpeningStats :=
  if o.win_rate < best.win_rate then o else best

/-- `min(iterable, key=lambda o: o.win_rate)` with a `None`-style result
on the empty iterable. -/
def py_min_by_win_rate : List OpeningStats → Option OpeningStats
  | [] => none
  | x :: xs => some (xs.foldl pick_min x)

/-- The `worst_performing` selection of `analyze_repertoire`
(`opening_analyzer.py` lines 135-139): the win-rate minimum over the
groups with at least 3 games, defaulting to `openings_list[-1]` (the
last element of the games-played-descending list) when none qualify. -/
def worst_performing (openings_list : List OpeningStats) :
    Option OpeningStats :=
  match py_min_by_win_rate
      (openings_list.filter fun o => 3 ≤ o.games_played) with
  | some o => some o
  | none => openings_list.getLast?

/-- `games_ge a b` means `a` has at least as many games as `b` — the
order maintained by `sort_games_desc`. -/
def games_ge (a b : OpeningStats) : Prop :=
  b.games_played ≤ a.games_played

/-- The concrete game list of the C9 counterexample: opening A is played
twice and lost twice (win rate 0), opening B once and won (win rate 1). -/
def cgames : List GameRec :=
  [⟨"A00", "OpA", "loss"⟩, ⟨"A00", "OpA", "loss"⟩, ⟨"B00", "OpB", "win"⟩]

theorem classify_eq_good_iff (loss : Int) : classify loss = .good ↔ loss ≤ 10 := by
  unfold classify
  split_ifs <;> simp_all <;> omega

theorem classify_eq_inaccuracy_iff (loss : Int) :
    classify loss = .inaccuracy ↔ 10 < loss ∧ loss ≤ 50 := by
  unfold classify
  split_ifs <;> simp_all <;> omega

theorem classify_eq_mistake_iff (loss : Int) :
    classify loss = .mistake ↔ 50 < loss ∧ loss ≤ 100 := by
  unfold classify
  split_ifs <;> simp_all <;> omega

theorem classify_eq_blunder_iff (loss : Int) :
    classify loss = .blunder ↔ 100 < loss := by
  unfold classify
  split_ifs <;> simp_all <;> omega

theorem severity_classify_mono (l₁ l₂ : Int) (h : l₁ ≤ l₂) :
    severity (classify l₁) ≤ severity (classify l₂) := by
  unfold classify
  split_ifs <;> simp [severity] <;> omega

/-- C2: `MoveClassifier.classify` sends a non-negative loss to GOOD iff
loss ≤ 10, INACCURACY iff 10 < loss ≤ 50, MISTAKE iff 50 < loss ≤ 100,
BLUNDER iff loss > 100; the boundary values 10/11/50/51/100/101 land in
GOOD/INACCURACY/INACCURACY/MISTAKE/MISTAKE/BLUNDER; and the severity of
the output is monotone in the loss. -/
theorem classify_thresholds :
    (∀ loss : Int, 0 ≤ loss →
      (classify loss = .good ↔ loss ≤ 10) ∧
      (classify loss = .inaccuracy ↔ 10 < loss ∧ loss ≤ 50) ∧
      (classify loss = .mistake ↔ 50 < loss ∧ loss ≤ 100) ∧
      (classify loss = .blunder ↔ 100 < loss)) ∧
    classify 10 = .good ∧ classify 11 = .inaccuracy ∧
    classify 50 = .inaccuracy ∧ classify 51 = .mistake ∧
    classify 100 = .mistake ∧ classify 101 = .blunder ∧
    (∀ l₁ l₂ : Int, 0 ≤ l₁ → l₁ ≤ l₂ →
      severity (classify l₁) ≤ severity (classify l₂)) := by
  refine ⟨fun loss _ => ⟨classify_eq_good_iff loss, classify_eq_inaccuracy_iff loss,
      classify_eq_mistake_iff loss, classify_eq_blunder_iff loss⟩,
    by decide, by decide, by decide, by decide, by decide, by decide,
    fun l₁ l₂ _ h => severity_classify_mono l₁ l₂ h⟩

/-- Witness for `classify_thresholds` at loss = 7. -/
theorem classify_thresholds_witness : classify 7 = .good :=
  (classify_thresholds.1 7 (by decide)).1.mpr (by decide)

/-- C10: `classify` is total over all integers and returns GOOD for every
loss ≤ 0, negative values included. -/
theorem classify_nonpositive (loss : Int) (h : loss ≤ 0) : classify loss = .good := by
  unfold classify
  split_ifs <;> simp_all

/-- Witness for `classify_nonpositive` at loss = -500. -/
theorem classify_nonpositive_witness : classify (-500) = .good :=
  classify_nonpositive (-500) (by decide)

theorem cp_loss_bounds (w : Bool) (b a : Int) :
    0 ≤ cp_loss w b a ∧ cp_loss w b a ≤ 1000 := by
  unfold cp_loss
  dsimp only
  split_ifs <;> constructor <;> omega

theorem phase_classify_eq_opening_iff (b : Board) (m : Nat) :
    phase_classify b m = .opening ↔ m ≤ 12 ∧ 60 ≤ total_material b := by
  unfold phase_classify
  split_ifs <;> simp_all

theorem phase_classify_eq_endgame_iff (b : Board) (m : Nat) :
    phase_classify b m = .endgame ↔
      ¬(m ≤ 12 ∧ 60 ≤ total_material b) ∧ total_material b ≤ 26 := by
  unfold phase_classify
  split_ifs <;> simp_all

theorem phase_classify_eq_middlegame_iff (b : Board) (m : Nat) :
    phase_classify b m = .middlegame ↔
      ¬(m ≤ 12 ∧ 60 ≤ total_material b) ∧ ¬(total_material b ≤ 26) := by
  unfold phase_classify
  split_ifs <;> simp_all

/-- C3: `PhaseClassifier.classify` returns OPENING iff move-number ≤ 12 and
material ≥ 60 (checked first), else ENDGAME iff material ≤ 26, else
MIDDLEGAME; material is the sum over both colours with weights pawn 1,
knight 3, bishop 3, rook 5, queen 9 and the king excluded; and the four
boundary cases (60,12), (60,13), (26,30), (27,30) classify as OPENING,
MIDDLEGAME, ENDGAME, MIDDLEGAME respectively. -/
theorem phase_classify_spec :
    (∀ (b : Board) (m : Nat),
      (phase_classify b m = .opening ↔ m ≤ 12 ∧ 60 ≤ total_material b) ∧
      (phase_classify b m = .endgame ↔
        ¬(m ≤ 12 ∧ 60 ≤ total_material b) ∧ total_material b ≤ 26) ∧
      (phase_classify b m = .middlegame ↔
        ¬(m ≤ 12 ∧ 60 ≤ total_material b) ∧ ¬(total_material b ≤ 26))) ∧
    (∀ b : Board, total_material b =
      (b.pieces .pawn true + b.pieces .pawn false) * 1 +
      (b.pieces .knight true + b.pieces .knight false) * 3 +
      (b.pieces .bishop true + b.pieces .bishop false) * 3 +
      (b.pieces .rook true + b.pieces .rook false) * 5 +
      (b.pieces .queen true + b.pieces .queen false) * 9) ∧
    total_material (pawnBoard 60) = 60 ∧
    phase_classify (pawnBoard 60) 12 = .opening ∧
    phase_classify (pawnBoard 60) 13 = .middlegame ∧
    total_material (pawnBoard 26) = 26 ∧
    phase_classify (pawnBoard 26) 30 = .endgame ∧
    total_material (pawnBoard 27) = 27 ∧
    phase_classify (pawnBoard 27) 30 = .middlegame := by
  refine ⟨fun b m => ⟨phase_classify_eq_opening_iff b m,
      phase_classify_eq_endgame_iff b m, phase_classify_eq_middlegame_iff b m⟩,
    fun b => ?_, by decide, by decide, by decide, by decide, by decide,
    by decide, by decide⟩
  simp [total_material, PIECE_VALUES]
  ring

/-- Witness for `phase_classify_spec`: a 70-material board at move 5 is
classified as the OPENING phase. -/
theorem phase_classify_spec_witness : phase_classify (pawnBoard 70) 5 = .opening :=
  (phase_classify_spec.1 (pawnBoard 70) 5).1.mpr (by decide)

theorem lookup_satisfies {α β : Type} [BEq α] (P : β → Prop) :
    ∀ (l : List (α × β)) (a : α) (b : β),
      (∀ p ∈ l, P p.2) → l.lookup a = some b → P b := by
  intro l
  induction l with
  | nil => intro a b _ hl; simp [List.lookup] at hl
  | cons p l ih =>
    intro a b hall hl
    rw [List.lookup] at hl
    by_cases hpa : (a == p.1) = true
    · rw [hpa] at hl
      simp only [Option.some.injEq] at hl
      exact hl ▸ hall p (List.mem_cons_self p l)
    · rw [Bool.not_eq_true] at hpa
      rw [hpa] at hl
      exact ih a b (fun q hq => hall q (List.mem_cons_of_mem p hq)) hl

theorem feature_ranges_table_lt :
    ∀ p ∈ feature_ranges_table, p.2.1 < p.2.2 := by
  intro p hp
  fin_cases hp <;> norm_num

theorem feature_ranges_lt (name : String) :
    (feature_ranges name).1 < (feature_ranges name).2 := by
  unfold feature_ranges
  cases h : feature_ranges_table.lookup name with
  | none => norm_num
  | some r =>
    simpa using lookup_satisfies (fun r : ℚ × ℚ => r.1 < r.2)
      feature_ranges_table name r feature_ranges_table_lt h

theorem normalize_value_mem_Icc (name : String) (v : ℚ) :
    0 ≤ normalize_value name v ∧ normalize_value name v ≤ 1 := by
  unfold normalize_value
  rw [if_pos (feature_ranges_lt name)]
  exact ⟨le_max_left 0 _, max_le (by norm_num) (min_le_left 1 _)⟩

theorem normalize_value_of_gt (name : String) (v : ℚ)
    (h : (feature_ranges name).2 < v) : normalize_value name v = 1 := by
  have hlt := feature_ranges_lt name
  have hpos : 0 < (feature_ranges name).2 - (feature_ranges name).1 := by linarith
  have h1 : 1 ≤ (v - (feature_ranges name).1) /
      ((feature_ranges name).2 - (feature_ranges name).1) :=
    (le_div_iff hpos).mpr (by linarith)
  unfold normalize_value
  rw [if_pos hlt, min_eq_left h1, max_eq_right (by norm_num)]

theorem normalize_value_of_lt (name : String) (v : ℚ)
    (h : v < (feature_ranges name).1) : normalize_value name v = 0 := by
  have hlt := feature_ranges_lt name
  have hpos : 0 < (feature_ranges name).2 - (feature_ranges name).1 := by linarith
  have h1 : (v - (feature_ranges name).1) /
      ((feature_ranges name).2 - (feature_ranges name).1) ≤ 0 :=
    div_nonpos_of_nonpos_of_nonneg (by linarith) (le_of_lt hpos)
  unfold normalize_value
  rw [if_pos hlt, max_eq_left (le_trans (min_le_right 1 _) h1)]

theorem feature_ranges_acpl : feature_ranges "avg_centipawn_loss" = (0, 200) := rfl

/-- C5: every value produced by `to_normalized_dict` lies in [0, 1]; each
mean is `(value - min) / (max - min)` for its field's range then clamped;
a mean above the range gives exactly 1 (e.g. avg_centipawn_loss 500 with
range (0, 200) gives 1) and a mean below the range gives exactly 0. -/
theorem to_normalized_dict_spec :
    (∀ (means : List (String × ℚ)) (p : String × ℚ),
      p ∈ to_normalized_dict means → 0 ≤ p.2 ∧ p.2 ≤ 1) ∧
    (∀ (name : String) (v : ℚ), normalize_value name v =
      max 0 (min 1 ((v - (feature_ranges name).1) /
        ((feature_ranges name).2 - (feature_ranges name).1)))) ∧
    (∀ (name : String) (v : ℚ), (feature_ranges name).2 < v →
      normalize_value name v = 1) ∧
    (∀ (name : String) (v : ℚ), v < (feature_ranges name).1 →
      normalize_value name v = 0) ∧
    feature_ranges "avg_centipawn_loss" = (0, 200) ∧
    normalize_value "avg_centipawn_loss" 500 = 1 := by
  refine ⟨fun means p hp => ?_, fun name v => ?_, normalize_value_of_gt,
    normalize_value_of_lt, feature_ranges_acpl, ?_⟩
  · obtain ⟨q, _, rfl⟩ := List.mem_map.mp hp
    exact normalize_value_mem_Icc q.1 q.2
  · unfold normalize_value
    rw [if_pos (feature_ranges_lt name)]
  · exact normalize_value_of_gt "avg_centipawn_loss" 500
      (by rw [feature_ranges_acpl]; norm_num)

/-- Witness for `to_normalized_dict_spec`: a mean of 500 for
avg_centipawn_loss (range (0, 200)) normalizes to exactly 1. -/
theorem to_normalized_dict_spec_witness :
    normalize_value "avg_centipawn_loss" 500 = 1 :=
  to_normalized_dict_spec.2.2.1 "avg_centipawn_loss" 500
    (by rw [feature_ranges_acpl]; norm_num)

theorem foldl_extract_step_skip (ipw : Bool) :
    ∀ (evals : List MoveEvalRec) (s : ExtractState),
      (∀ ev ∈ evals, ev.is_white ≠ ipw) →
      evals.foldl (extract_step ipw) s = s := by
  intro evals
  induction evals with
  | nil => intro s _; rfl
  | cons ev evals ih =>
    intro s h
    rw [List.foldl_cons]
    have hev : ev.is_white ≠ ipw := h ev (List.mem_cons_self ev evals)
    have hstep : extract_step ipw s ev = s := by
      unfold extract_step
      rw [if_pos (bne_iff_ne.mpr hev)]
    rw [hstep]
    exact ih s (fun e he => h e (List.mem_cons_of_mem ev he))

/-- C6 counterexample: with zero player moves but a total-move count of
40, `extract` does not return the all-default `GameFeatures` — its
`game_length` is 40. -/
theorem extract_default_counterexample :
    extract (fun _ => 0) [] "white" 40 ≠ ({} : GameFeatures) := by decide

/-- C6 (amended): for every input with zero moves by the subject player
(whatever the total-move count and opponent moves present), `extract`
returns the default `GameFeatures` with only `game_length` set to the
given total-move count — and, being total, it raises no error. -/
theorem extract_zero_player_moves (stdevFn : List ℚ → ℚ)
    (evals : List MoveEvalRec) (player_color : String) (total_moves : Int)
    (h : ∀ ev ∈ evals, ev.is_white ≠ (player_color == "white")) :
    extract stdevFn evals player_color total_moves =
      { game_length := total_moves } := by
  unfold extract
  dsimp only
  rw [foldl_extract_step_skip (player_color == "white") evals {} h]
  rfl

/-- Witness for `extract_zero_player_moves`: an evaluation list holding a
single opponent (Black) move, player White, 7 total moves. -/
theorem extract_zero_player_moves_witness :
    extract (fun _ => 0) [{ is_white := false }] "white" 7 =
      { game_length := 7 } :=
  extract_zero_player_moves (fun _ => 0) [{ is_white := false }] "white" 7
    (by intro ev hev; fin_cases hev; decide)

theorem lookup_map_eq (f : String → ℚ) :
    ∀ (names : List String) (name : String), name ∈ names →
      (names.map fun n => (n, f n)).lookup name = some (f name) := by
  intro names
  induction names with
  | nil => intro name h; cases h
  | cons n ns ih =>
    intro name h
    rw [List.map_cons, List.lookup]
    by_cases hn : name = n
    · subst hn
      simp
    · rw [beq_eq_false_iff_ne.mpr hn]
      exact ih name ((List.mem_cons.mp h).resolve_left hn)

/-- C7 counterexample: `from_games` on the empty set returns an empty
means mapping, so the named field `avg_centipawn_loss` has no mean at
all (it is absent, not 0.0). -/
theorem from_games_empty_counterexample :
    "avg_centipawn_loss" ∈ feature_names ∧
    (from_games []).lookup "avg_centipawn_loss" = none := by
  exact ⟨by simp [feature_names], rfl⟩

/-- C7 (amended): `from_games` on the empty set returns an empty means
mapping (every named field is absent); on every non-empty set, the mean
recorded for each named field is the arithmetic mean of that field's
values across the set. -/
theorem from_games_spec :
    from_games ([] : List GameFeatures) = [] ∧
    (∀ (games : List GameFeatures), games ≠ [] → ∀ name ∈ feature_names,
      (from_games games).lookup name =
        some ((games.map (get_feature name)).sum / (games.length : ℚ))) := by
  constructor
  · rfl
  · intro games hg name hname
    unfold from_games
    rw [if_neg hg]
    rw [lookup_map_eq
      (fun n => if games.map (get_feature n) ≠ [] then
        listMean (games.map (get_feature n)) else 0) feature_names name hname]
    have hne : games.map (get_feature name) ≠ [] := by
      simpa using hg
    rw [if_pos hne]
    unfold listMean
    rw [List.length_map]

/-- Witness for `from_games_spec`: one default-valued game; the recorded
mean of avg_centipawn_loss is its (zero) value. -/
theorem from_games_spec_witness :
    (from_games [{}]).lookup "avg_centipawn_loss" = some 0 := by
  have h := from_games_spec.2 [{}] (by simp) "avg_centipawn_loss"
    (by simp [feature_names])
  simpa [get_feature] using h

theorem verdict_cases (M : ℚ) :
    ((if 2 < M then VerdictTier.strong_warning
      else if 3/2 < M then .mild_warning else .consistent) =
        .strong_warning ↔ 2 < M) ∧
    ((if 2 < M then VerdictTier.strong_warning
      else if 3/2 < M then .mild_warning else .consistent) =
        .mild_warning ↔ 3/2 < M ∧ M ≤ 2) ∧
    ((if 2 < M then VerdictTier.strong_warning
      else if 3/2 < M then .mild_warning else .consistent) =
        .consistent ↔ M ≤ 3/2) := by
  split_ifs with h1 h2 <;>
    refine ⟨?_, ?_, ?_⟩ <;> simp_all <;> linarith

/-- C8: rushing analysis computes `rate_under` as blunders-under-60s over
`max 1` moves-under-60s, `rate_over` analogously for moves at or above
60s, and the multiplier as `rate_under / max 0.01 rate_over`; the verdict
is the strong-warning tier iff multiplier > 2, the mild-warning tier iff
1.5 < multiplier ≤ 2, the consistent tier otherwise; and with
`rate_over = 0` the multiplier is the finite `rate_under / 0.01`. -/
theorem analyze_rushing_spec (time_blunders : List (ℚ × Int))
    (time_non_blunders : List ℚ) (total_moves : Nat) :
    (analyze_rushing time_blunders time_non_blunders
        total_moves).blunder_rate_under_60s =
      ((time_blunders.filter fun p => p.1 < 60).length : ℚ) /
        ((max 1 ((time_blunders.filter fun p => p.1 < 60).length +
          (time_non_blunders.filter fun t => t < 60).length) : Nat) : ℚ) ∧
    (analyze_rushing time_blunders time_non_blunders
        total_moves).blunder_rate_over_60s =
      ((time_blunders.filter fun p => (60:ℚ) ≤ p.1).length : ℚ) /
        ((max 1 ((time_blunders.filter fun p => (60:ℚ) ≤ p.1).length +
          (time_non_blunders.filter fun t => (60:ℚ) ≤ t).length) : Nat) : ℚ) ∧
    (analyze_rushing time_blunders time_non_blunders
        total_moves).time_trouble_multiplier =
      (analyze_rushing time_blunders time_non_blunders
          total_moves).blunder_rate_under_60s /
        max (1/100) (analyze_rushing time_blunders time_non_blunders
          total_moves).blunder_rate_over_60s ∧
    ((analyze_rushing time_blunders time_non_blunders total_moves).verdict =
        .strong_warning ↔
      2 < (analyze_rushing time_blunders time_non_blunders
        total_moves).time_trouble_multiplier) ∧
    ((analyze_rushing time_blunders time_non_blunders total_moves).verdict =
        .mild_warning ↔
      3/2 < (analyze_rushing time_blunders time_non_blunders
          total_moves).time_trouble_multiplier ∧
        (analyze_rushing time_blunders time_non_blunders
          total_moves).time_trouble_multiplier ≤ 2) ∧
    ((analyze_rushing time_blunders time_non_blunders total_moves).verdict =
        .consistent ↔
      (analyze_rushing time_blunders time_non_blunders
        total_moves).time_trouble_multiplier ≤ 3/2) ∧
    ((analyze_rushing time_blunders time_non_blunders
        total_moves).blunder_rate_over_60s = 0 →
      (analyze_rushing time_blunders time_non_blunders
          total_moves).time_trouble_multiplier =
        (analyze_rushing time_blunders time_non_blunders
          total_moves).blunder_rate_under_60s / (1/100)) := by
  unfold analyze_rushing
  dsimp only
  refine ⟨rfl, rfl, rfl, (verdict_cases _).1, (verdict_cases _).2.1,
    (verdict_cases _).2.2, ?_⟩
  intro h
  rw [h]
  norm_num

/-- Witness for `analyze_rushing_spec`: one clocked blunder at 30s and
one clocked non-blunder at 90s give rate_under = 1, rate_over = 0,
multiplier = 100, and the strong-warning verdict. -/
theorem analyze_rushing_spec_witness :
    (analyze_rushing [((30 : ℚ), (200 : Int))] [(90 : ℚ)] 2).verdict =
      .strong_warning :=
  (analyze_rushing_spec [((30 : ℚ), (200 : Int))] [(90 : ℚ)] 2).2.2.2.1.mpr
    (by norm_num [analyze_rushing, List.filter_cons, List.filter_nil])

theorem analyze_step_phase_losses (bo : String → Board)
    (o : String → EngineEval) (ipw : Bool) (s : AnalyzeState)
    (m : ParsedMove) (p : GamePhase) :
    (analyze_step bo o ipw s m).phase_losses p =
      s.phase_losses p ++
        (if m.is_white == ipw &&
            (phase_classify (bo m.fen_before) m.move_number == p) then
          [cp_loss m.is_white (o m.fen_before).score_cp
            (o m.fen_after).score_cp]
        else []) := by
  unfold analyze_step
  dsimp only
  by_cases hw : (m.is_white == ipw) = true
  · rw [if_pos hw, hw]
    dsimp only
    by_cases hp : p = phase_classify (bo m.fen_before) m.move_number
    · simp [hp]
    · simp [hp, Ne.symm hp]
  · rw [if_neg hw]
    rw [Bool.not_eq_true] at hw
    simp [hw]

theorem foldl_analyze_phase_losses (bo : String → Board)
    (o : String → EngineEval) (ipw : Bool) (p : GamePhase) :
    ∀ (moves : List ParsedMove) (s : AnalyzeState),
      (moves.foldl (analyze_step bo o ipw) s).phase_losses p =
        s.phase_losses p ++ player_phase_losses bo o ipw p moves := by
  intro moves
  induction moves with
  | nil => intro s; simp [player_phase_losses]
  | cons m ms ih =>
    intro s
    rw [List.foldl_cons, ih (analyze_step bo o ipw s m),
      analyze_step_phase_losses, player_phase_losses, List.append_assoc]

theorem analyze_step_moves_mem (bo : String → Board)
    (o : String → EngineEval) (ipw : Bool) (s : AnalyzeState)
    (m : ParsedMove) (ma : MoveAnalysis)
    (h : ma ∈ (analyze_step bo o ipw s m).move_analyses) :
    ma ∈ s.move_analyses ∨
      ma.centipawn_loss = cp_loss m.is_white (o m.fen_before).score_cp
        (o m.fen_after).score_cp := by
  unfold analyze_step at h
  dsimp only at h
  by_cases hw : (m.is_white == ipw) = true
  · rw [if_pos hw] at h
    dsimp only at h
    rcases List.mem_append.mp h with h1 | h1
    · exact Or.inl h1
    · exact Or.inr (by rw [List.mem_singleton.mp h1])
  · rw [if_neg hw] at h
    dsimp only at h
    rcases List.mem_append.mp h with h1 | h1
    · exact Or.inl h1
    · exact Or.inr (by rw [List.mem_singleton.mp h1])

theorem foldl_analyze_moves_bound (bo : String → Board)
    (o : String → EngineEval) (ipw : Bool) :
    ∀ (moves : List ParsedMove) (s : AnalyzeState),
      (∀ ma ∈ s.move_analyses,
        0 ≤ ma.centipawn_loss ∧ ma.centipawn_loss ≤ 1000) →
      ∀ ma ∈ (moves.foldl (analyze_step bo o ipw) s).move_analyses,
        0 ≤ ma.centipawn_loss ∧ ma.centipawn_loss ≤ 1000 := by
  intro moves
  induction moves with
  | nil => intro s h; exact h
  | cons m ms ih =>
    intro s h
    rw [List.foldl_cons]
    apply ih
    intro ma hma
    rcases analyze_step_moves_mem bo o ipw s m ma hma with h1 | h1
    · exact h ma h1
    · rw [h1]
      exact cp_loss_bounds m.is_white (o m.fen_before).score_cp
        (o m.fen_after).score_cp

theorem weakness_step_le (colors : Nat → String) (w : WeaknessCounts)
    (ev : MoveEvalRec) (ph : String)
    (h : w.blunders_by_phase ph ≤ w.moves_by_phase ph) :
    (weakness_count_step colors w ev).blunders_by_phase ph ≤
      (weakness_count_step colors w ev).moves_by_phase ph := by
  unfold weakness_count_step
  dsimp only
  by_cases hskip : (ev.is_white != (colors ev.game_id == "white")) = true
  · rw [if_pos hskip]
    exact h
  · rw [if_neg hskip]
    dsimp only
    by_cases hbl :
        ev.classification = "blunder" ∨ ev.classification = "mistake"
    · rw [if_pos hbl]
      by_cases hph : ph = ev.game_phase
      · simp only [if_pos hph]
        omega
      · simp only [if_neg hph]
        exact h
    · rw [if_neg hbl]
      by_cases hph : ph = ev.game_phase
      · simp only [if_pos hph]
        omega
      · simp only [if_neg hph]
        exact h

theorem weakness_blunders_le_moves (colors : Nat → String) :
    ∀ (evals : List MoveEvalRec) (w : WeaknessCounts) (ph : String),
      w.blunders_by_phase ph ≤ w.moves_by_phase ph →
      (evals.foldl (weakness_count_step colors) w).blunders_by_phase ph ≤
        (evals.foldl (weakness_count_step colors) w).moves_by_phase ph := by
  intro evals
  induction evals with
  | nil => intro w ph h; exact h
  | cons ev evs ih =>
    intro w ph h
    rw [List.foldl_cons]
    exact ih (weakness_count_step colors w ev) ph
      (weakness_step_le colors w ev ph h)

theorem acpl_option_char (L : List Int) :
    ((if L ≠ [] then some (loss_avg L) else none) = none ↔ L = []) ∧
    (L ≠ [] →
      (if L ≠ [] then some (loss_avg L) else none) = some (meanInt L)) := by
  constructor
  · by_cases hL : L = [] <;> simp [hL]
  · intro hL
    rw [if_pos hL]
    unfold loss_avg
    rw [if_pos hL]

theorem weakness_lookup (move_evaluations : List MoveEvalRec)
    (player_color_per_game : Nat → String) (ph : String)
    (h : ph ∈ (["opening", "middlegame", "endgame"] : List String)) :
    (weakness_phase_breakdown move_evaluations player_color_per_game).lookup
        ph =
      some (((weakness_counts move_evaluations
          player_color_per_game).blunders_by_phase ph : ℚ) /
        ((max 1 ((weakness_counts move_evaluations
          player_color_per_game).moves_by_phase ph) : Nat) : ℚ)) := by
  unfold weakness_phase_breakdown
  exact lookup_map_eq _ _ ph h

/-- C4: the two empty-phase conventions differ: for every game and
phase, `GameAnalysisResult` reports the phase ACPL as absent (`none`)
exactly when the player has zero moves classified in that phase, and as
the arithmetic mean of that phase's player losses otherwise; whereas
`WeaknessDetector.analyze`'s phase_breakdown maps each of the three
phases to blunders / max(1, moves), hence reports `some 0` (not absent)
for a phase with zero player moves. -/
theorem empty_phase_conventions :
    (∀ (boardOf : String → Board) (oracle : String → EngineEval)
        (parsed_moves : List ParsedMove) (player_color : String)
        (p : GamePhase),
      (phase_acpl (analyze_game boardOf oracle parsed_moves player_color) p =
          none ↔
        player_phase_losses boardOf oracle (player_color == "white") p
          parsed_moves = []) ∧
      (player_phase_losses boardOf oracle (player_color == "white") p
          parsed_moves ≠ [] →
        phase_acpl (analyze_game boardOf oracle parsed_moves player_color) p =
          some (meanInt (player_phase_losses boardOf oracle
            (player_color == "white") p parsed_moves)))) ∧
    (∀ (move_evaluations : List MoveEvalRec)
        (player_color_per_game : Nat → String) (ph : String),
      ph ∈ (["opening", "middlegame", "endgame"] : List String) →
      (weakness_phase_breakdown move_evaluations player_color_per_game).lookup
          ph =
        some (((weakness_counts move_evaluations
            player_color_per_game).blunders_by_phase ph : ℚ) /
          ((max 1 ((weakness_counts move_evaluations
            player_color_per_game).moves_by_phase ph) : Nat) : ℚ)) ∧
      ((weakness_counts move_evaluations
          player_color_per_game).moves_by_phase ph = 0 →
        (weakness_phase_breakdown move_evaluations
            player_color_per_game).lookup ph = some 0)) := by
  constructor
  · intro boardOf oracle parsed_moves player_color p
    have hfold := foldl_analyze_phase_losses boardOf oracle
      (player_color == "white") p parsed_moves {}
    have hinit : (({} : AnalyzeState)).phase_losses p = [] := rfl
    rw [hinit, List.nil_append] at hfold
    cases p <;>
      (unfold analyze_game phase_acpl
       dsimp only
       rw [hfold]
       exact acpl_option_char _)
  · intro move_evaluations player_color_per_game ph h
    refine ⟨weakness_lookup move_evaluations player_color_per_game ph h, ?_⟩
    intro hzero
    rw [weakness_lookup move_evaluations player_color_per_game ph h]
    have hle : (weakness_counts move_evaluations
        player_color_per_game).blunders_by_phase ph ≤
        (weakness_counts move_evaluations
          player_color_per_game).moves_by_phase ph :=
      weakness_blunders_le_moves player_color_per_game move_evaluations {} ph
        (le_refl 0)
    rw [hzero] at hle
    have hb : (weakness_counts move_evaluations
        player_color_per_game).blunders_by_phase ph = 0 := by omega
    rw [hzero, hb]
    norm_num

/-- Witness for `empty_phase_conventions`: the empty game reports the
opening ACPL as absent, while the weakness detector's phase_breakdown
reports a zero (present) blunder rate for the opening. -/
theorem empty_phase_conventions_witness :
    phase_acpl (analyze_game (fun _ => pawnBoard 0)
        (fun _ => ⟨0, "", "", none, [], 0⟩) [] "white") .opening = none ∧
    (weakness_phase_breakdown [] (fun _ => "white")).lookup "opening" =
      some 0 :=
  ⟨(empty_phase_conventions.1 (fun _ => pawnBoard 0)
      (fun _ => ⟨0, "", "", none, [], 0⟩) [] "white" .opening).1.mpr rfl,
   (empty_phase_conventions.2 [] (fun _ => "white") "opening"
      (by simp)).2 rfl⟩

/-- C1: the centipawn loss recorded by the pipeline is
`max 0 (before - after)` for white, `max 0 ((-before) - (-after))` for
black, clamped above at 1000; so it always lies in [0, 1000] — as does
the `centipawn_loss` of every `MoveAnalysis` produced by
`analyze_game` — and a before/after pair with a 5000-centipawn swing
against the mover yields exactly 1000. -/
theorem cp_loss_spec :
    (∀ (w : Bool) (b a : Int),
      cp_loss w b a =
        min (if w then max 0 (b - a) else max 0 ((-b) - (-a))) 1000) ∧
    (∀ (w : Bool) (b a : Int), 0 ≤ cp_loss w b a ∧ cp_loss w b a ≤ 1000) ∧
    (∀ (boardOf : String → Board) (oracle : String → EngineEval)
        (parsed_moves : List ParsedMove) (player_color : String),
      ∀ ma ∈ (analyze_game boardOf oracle parsed_moves player_color).moves,
        0 ≤ ma.centipawn_loss ∧ ma.centipawn_loss ≤ 1000) ∧
    (∀ b a : Int, b - a = 5000 → cp_loss true b a = 1000) ∧
    (∀ b a : Int, a - b = 5000 → cp_loss false b a = 1000) := by
  refine ⟨fun w b a => rfl, cp_loss_bounds, ?_, fun b a h => ?_,
    fun b a h => ?_⟩
  · intro boardOf oracle parsed_moves player_color ma hma
    exact foldl_analyze_moves_bound boardOf oracle (player_color == "white")
      parsed_moves {} (by intro x hx; cases hx) ma hma
  · have h1 : cp_loss true b a = min (max 0 (b - a)) 1000 := rfl
    omega
  · have h1 : cp_loss false b a = min (max 0 ((-b) - (-a))) 1000 := rfl
    omega

/-- Witness for `cp_loss_spec`: a +2500/−2500 pair (a 5000cp swing against
White) records exactly 1000 centipawns of loss. -/
theorem cp_loss_spec_witness : cp_loss true 2500 (-2500) = 1000 :=
  cp_loss_spec.2.2.2.1 2500 (-2500) (by decide)

theorem foldl_pick_min_mem :
    ∀ (xs : List OpeningStats) (x : OpeningStats),
      xs.foldl pick_min x = x ∨ xs.foldl pick_min x ∈ xs := by
  intro xs
  induction xs with
  | nil => intro x; exact Or.inl rfl
  | cons o os ih =>
    intro x
    rw [List.foldl_cons]
    rcases ih (pick_min x o) with h | h
    · rw [h]
      unfold pick_min
      split_ifs
      · exact Or.inr (List.mem_cons_self o os)
      · exact Or.inl rfl
    · exact Or.inr (List.mem_cons_of_mem o h)

theorem pick_min_le_left (x o : OpeningStats) :
    (pick_min x o).win_rate ≤ x.win_rate := by
  unfold pick_min
  split_ifs with h
  · exact le_of_lt h
  · exact le_refl _

theorem pick_min_le_right (x o : OpeningStats) :
    (pick_min x o).win_rate ≤ o.win_rate := by
  unfold pick_min
  split_ifs with h
  · exact le_refl _
  · exact le_of_not_lt h

theorem foldl_pick_min_le_init :
    ∀ (xs : List OpeningStats) (x : OpeningStats),
      (xs.foldl pick_min x).win_rate ≤ x.win_rate := by
  intro xs
  induction xs with
  | nil => intro x; exact le_refl _
  | cons o os ih =>
    intro x
    rw [List.foldl_cons]
    exact le_trans (ih (pick_min x o)) (pick_min_le_left x o)

theorem foldl_pick_min_le_mem :
    ∀ (xs : List OpeningStats) (x o : OpeningStats), o ∈ xs →
      (xs.foldl pick_min x).win_rate ≤ o.win_rate := by
  intro xs
  induction xs with
  | nil => intro x o h; cases h
  | cons o' os ih =>
    intro x o h
    rw [List.foldl_cons]
    rcases List.mem_cons.mp h with rfl | h1
    · exact le_trans (foldl_pick_min_le_init os (pick_min x o))
        (pick_min_le_right x o)
    · exact ih (pick_min x o') o h1

theorem py_min_mem (l : List OpeningStats) (w : OpeningStats)
    (h : py_min_by_win_rate l = some w) : w ∈ l := by
  cases l with
  | nil => cases h
  | cons x xs =>
    unfold py_min_by_win_rate at h
    rw [Option.some_inj] at h
    rw [← h]
    rcases foldl_pick_min_mem xs x with h1 | h1
    · rw [h1]; exact List.mem_cons_self x xs
    · exact List.mem_cons_of_mem x h1

theorem py_min_le (l : List OpeningStats) (w : OpeningStats)
    (h : py_min_by_win_rate l = some w) :
    ∀ o ∈ l, w.win_rate ≤ o.win_rate := by
  cases l with
  | nil => cases h
  | cons x xs =>
    unfold py_min_by_win_rate at h
    rw [Option.some_inj] at h
    intro o ho
    rw [← h]
    rcases List.mem_cons.mp ho with rfl | h1
    · exact foldl_pick_min_le_init xs o
    · exact foldl_pick_min_le_mem xs x o h1

theorem mem_insert_desc (a x : OpeningStats) :
    ∀ (l : List OpeningStats), a ∈ insert_desc x l ↔ a = x ∨ a ∈ l := by
  intro l
  induction l with
  | nil => simp [insert_desc]
  | cons y ys ih =>
    unfold insert_desc
    split_ifs
    · simp
    · simp only [List.mem_cons, ih]
      tauto

theorem mem_sort_aux (a : OpeningStats) :
    ∀ (l acc : List OpeningStats),
      a ∈ l.foldl (fun acc x => insert_desc x acc) acc ↔
        a ∈ acc ∨ a ∈ l := by
  intro l
  induction l with
  | nil => intro acc; simp
  | cons x xs ih =>
    intro acc
    rw [List.foldl_cons, ih (insert_desc x acc)]
    rw [mem_insert_desc]
    simp only [List.mem_cons]
    tauto

theorem mem_sort_games_desc (a : OpeningStats) (l : List OpeningStats) :
    a ∈ sort_games_desc l ↔ a ∈ l := by
  unfold sort_games_desc
  rw [mem_sort_aux]
  simp

theorem pairwise_insert_desc (x : OpeningStats) :
    ∀ (l : List OpeningStats), l.Pairwise games_ge →
      (insert_desc x l).Pairwise games_ge := by
  intro l
  induction l with
  | nil => intro _; simp [insert_desc, List.pairwise_cons]
  | cons y ys ih =>
    intro hp
    obtain ⟨hy, hys⟩ := List.pairwise_cons.mp hp
    unfold insert_desc
    split_ifs with hlt
    · refine List.pairwise_cons.mpr ⟨?_, hp⟩
      intro b hb
      rcases List.mem_cons.mp hb with rfl | hb1
      · exact le_of_lt hlt
      · exact le_trans (hy b hb1) (le_of_lt hlt)
    · refine List.pairwise_cons.mpr ⟨?_, ih hys⟩
      intro b hb
      rcases (mem_insert_desc b x ys).mp hb with rfl | hb1
      · exact le_of_not_lt hlt
      · exact hy b hb1

theorem sort_pairwise_aux :
    ∀ (l acc : List OpeningStats), acc.Pairwise games_ge →
      (l.foldl (fun acc x => insert_desc x acc) acc).Pairwise games_ge := by
  intro l
  induction l with
  | nil => intro acc h; exact h
  | cons x xs ih =>
    intro acc h
    rw [List.foldl_cons]
    exact ih (insert_desc x acc) (pairwise_insert_desc x acc h)

theorem sort_games_desc_pairwise (l : List OpeningStats) :
    (sort_games_desc l).Pairwise games_ge :=
  sort_pairwise_aux l [] (List.Pairwise.nil)

theorem pairwise_getLast_min :
    ∀ (l : List OpeningStats), l.Pairwise games_ge →
      ∀ w, l.getLast? = some w →
        ∀ a ∈ l, w.games_played ≤ a.games_played := by
  intro l
  induction l with
  | nil => intro _ w hw; cases hw
  | cons y ys ih =>
    intro hp w hw a ha
    cases ys with
    | nil =>
      simp only [List.getLast?_singleton, Option.some_inj] at hw
      rcases List.mem_singleton.mp ha with rfl
      rw [← hw]
    | cons z zs =>
      rw [List.getLast?_cons_cons] at hw
      obtain ⟨hy, hys⟩ := List.pairwise_cons.mp hp
      rcases List.mem_cons.mp ha with rfl | ha1
      · have hwmem : w ∈ z :: zs := List.mem_of_mem_getLast? (by simp [hw])
        exact hy w hwmem
      · exact ih hys w hw a ha1

theorem sort_getLast_some (l : List OpeningStats) (hne : l ≠ []) :
    ∃ w, (sort_games_desc l).getLast? = some w ∧ w ∈ l ∧
      ∀ a ∈ l, w.games_played ≤ a.games_played := by
  obtain ⟨a, ha⟩ := List.exists_mem_of_ne_nil l hne
  have hmem : a ∈ sort_games_desc l := (mem_sort_games_desc a l).mpr ha
  have hsne : sort_games_desc l ≠ [] := List.ne_nil_of_mem hmem
  cases hlast : (sort_games_desc l).getLast? with
  | none => exact absurd (List.getLast?_eq_none_iff.mp hlast) hsne
  | some w =>
    refine ⟨w, rfl, ?_, ?_⟩
    · have : w ∈ sort_games_desc l :=
        List.mem_of_mem_getLast? (by simp [hlast])
      exact (mem_sort_games_desc w l).mp this
    · intro b hb
      exact pairwise_getLast_min (sort_games_desc l)
        (sort_games_desc_pairwise l) w hlast b
        ((mem_sort_games_desc b l).mpr hb)

/-- C9 counterexample: with group A (2 games, win rate 0) and group B
(1 game, win rate 1), no group reaches 3 games and `worst_performing`
falls back to B — the last entry of the games-descending order, with the
strictly higher win rate — not to the lowest-win-rate group A. -/
theorem worst_performing_counterexample :
    worst_performing
        (sort_games_desc ((opening_stats_of cgames).map Prod.snd)) =
      some ⟨"B00", "OpB", 1, 1, 0, 0⟩ ∧
    OpeningStats.win_rate ⟨"B00", "OpB", 1, 1, 0, 0⟩ = 1 ∧
    (⟨"A00", "OpA", 2, 0, 0, 2⟩ : OpeningStats) ∈
      (opening_stats_of cgames).map Prod.snd ∧
    OpeningStats.win_rate ⟨"A00", "OpA", 2, 0, 0, 2⟩ = 0 := by
  refine ⟨by decide, ?_, by decide, ?_⟩
  · norm_num [OpeningStats.win_rate]
  · norm_num [OpeningStats.win_rate]

/-- C9 (amended): over the games-played-descending list the code builds,
`worst_performing` is the first lowest-win-rate group among those with
at least 3 games when one exists; when no group has 3 games it falls
back to the last entry of the descending order — a group with the fewest
games played — regardless of win rate. -/
theorem worst_performing_spec :
    (∀ l : List OpeningStats, (∃ o ∈ l, 3 ≤ o.games_played) →
      ∃ w, worst_performing (sort_games_desc l) = some w ∧ w ∈ l ∧
        3 ≤ w.games_played ∧
        ∀ o ∈ l, 3 ≤ o.games_played → w.win_rate ≤ o.win_rate) ∧
    (∀ l : List OpeningStats, l ≠ [] → (∀ o ∈ l, o.games_played < 3) →
      worst_performing (sort_games_desc l) = (sort_games_desc l).getLast? ∧
      ∃ w, (sort_games_desc l).getLast? = some w ∧ w ∈ l ∧
        ∀ o ∈ l, w.games_played ≤ o.games_played) := by
  constructor
  · rintro l ⟨o0, ho0, ho3⟩
    have hne : (sort_games_desc l).filter
        (fun o => 3 ≤ o.games_played) ≠ [] := by
      apply List.ne_nil_of_mem (a := o0)
      rw [List.mem_filter]
      exact ⟨(mem_sort_games_desc o0 l).mpr ho0, by simpa using ho3⟩
    cases hmin : py_min_by_win_rate ((sort_games_desc l).filter
        (fun o => 3 ≤ o.games_played)) with
    | none =>
      cases hfil : (sort_games_desc l).filter
          (fun o => 3 ≤ o.games_played) with
      | nil => exact absurd hfil hne
      | cons x xs =>
        rw [hfil] at hmin
        cases hmin
    | some w =>
      have hwmem : w ∈ (sort_games_desc l).filter
          (fun o => 3 ≤ o.games_played) := py_min_mem _ w hmin
      have hw2 := List.mem_filter.mp hwmem
      refine ⟨w, ?_, (mem_sort_games_desc w l).mp hw2.1,
        by simpa using hw2.2, ?_⟩
      · unfold worst_performing
        rw [hmin]
      · intro o ho ho3b
        apply py_min_le _ w hmin
        rw [List.mem_filter]
        exact ⟨(mem_sort_games_desc o l).mpr ho, by simpa using ho3b⟩
  · intro l hne hall
    have hfil : (sort_games_desc l).filter
        (fun o => 3 ≤ o.games_played) = [] := by
      rw [List.filter_eq_nil_iff]
      intro a ha
      have hal : a ∈ l := (mem_sort_games_desc a l).mp ha
      have := hall a hal
      simp only [decide_eq_true_eq]
      omega
    constructor
    · unfold worst_performing
      rw [hfil]
      rfl
    · exact sort_getLast_some l hne

/-- Witness for `worst_performing_spec`: a single group with 3 games is
selected as worst_performing. -/
theorem worst_performing_spec_witness :
    ∃ w, worst_performing
        (sort_games_desc [⟨"C00", "OpC", 3, 1, 0, 2⟩]) = some w ∧
      w ∈ ([⟨"C00", "OpC", 3, 1, 0, 2⟩] : List OpeningStats) ∧
      3 ≤ w.games_played ∧
      ∀ o ∈ ([⟨"C00", "OpC", 3, 1, 0, 2⟩] : List OpeningStats),
        3 ≤ o.games_played → w.win_rate ≤ o.win_rate :=
  worst_performing_spec.1 [⟨"C00", "OpC", 3, 1, 0, 2⟩]
    ⟨⟨"C00", "OpC", 3, 1, 0, 2⟩, List.mem_singleton.mpr rfl, by decide⟩

end ChessLens
